import Mathlib

/-
Verification development for the call-graph / information-flow metrics engine
implemented in `src/information-flow-metrics.js` (class
`InformationFlowAnalyzer`).

The JavaScript analyzer is embedded shallowly:

* esprima syntax trees are modelled by the inductive `JsNode` (the node kinds
  the analyzer inspects, plus a generic `other` node for every other kind;
  non-computed member accesses carry their property name as a string, and
  function parameter patterns are flattened into `JsPat` since the analyzer
  only reads their `type` and `name`);
* the mutable analyzer state (`this.modules`, `this.calls`, the per-file
  function lists, counters) is passed explicitly through the traversal
  functions;
* JavaScript `parent` back-pointers are replaced by an explicit ancestor
  chain (innermost first).  The source overwrites a function node's `parent`
  with its metadata record before recursing (line 215), so a name-resolution
  walk starting inside a function body always dies out at the nearest
  enclosing function definition node; `walkAnonName` reproduces exactly that
  by returning the anonymous fallback when it reaches a function-typed
  ancestor;
* numbers are `Nat` (line numbers, counters, fan-in/out); the only
  fractional quantity, a module's cohesion, is kept as the exact pair
  (sharedReferences, totalPairs) together with a `Rat`-valued view.

String helpers are reimplemented with structural recursion so that concrete
runs of the analyzer reduce inside the kernel.
-/

set_option maxRecDepth 10000

/-- Prefix test on character lists (structural, kernel-reducible). -/
def charListIsPre : List Char → List Char → Bool
  | [], _ => true
  | _ :: _, [] => false
  | a :: as, b :: bs => a == b && charListIsPre as bs

/-- Substring occurrence test on character lists. -/
def charListIsSub (p : List Char) : List Char → Bool
  | [] => charListIsPre p []
  | c :: tl => charListIsPre p (c :: tl) || charListIsSub p tl

/-- Model of JavaScript `s.includes(sub)` (substring containment). -/
def strIncludes (s sub : String) : Bool := charListIsSub sub.data s.data

/-- Helper for the split functions: accumulates the current segment
reversed. -/
def splitOnCharAux (sep : Char) : List Char → List Char → List String
  | [], cur => [String.mk cur.reverse]
  | c :: cs, cur =>
      if c == sep then String.mk cur.reverse :: splitOnCharAux sep cs []
      else splitOnCharAux sep cs (c :: cur)

/-- Model of JavaScript `s.split('.')`. -/
def splitOnDot (s : String) : List String := splitOnCharAux '.' s.data []

/-- Split on `/`, used to model `path.basename`. -/
def splitOnSlash (s : String) : List String := splitOnCharAux '/' s.data []

/-- Parameter patterns as the analyzer distinguishes them: an `Identifier`
with its name, an `ObjectPattern`, an `ArrayPattern`, or anything else. -/
inductive JsPat where
  | identP (name : String)
  | objectPat
  | arrayPat
  | otherPat

/-- The esprima node kinds `InformationFlowAnalyzer` inspects.  `other`
stands for every remaining node kind (blocks, statements, non-string
literals, …): the traversal only ever walks into their children.  A
`memberExpr` is a non-computed member access `obj.prop`; `varDeclarator`
keeps its binding name when the binding pattern is an identifier (`id.name`
is absent otherwise), `propNode` likewise keeps an object-literal key name
when the key is an identifier. -/
inductive JsNode where
  | funcDecl (name : Option String) (params : List JsPat) (body : JsNode) (line : Nat)
  | funcExpr (params : List JsPat) (body : JsNode) (line : Nat)
  | arrowExpr (params : List JsPat) (body : JsNode) (line : Nat)
  | callExpr (callee : JsNode) (args : List JsNode) (line : Nat)
  | memberExpr (obj : JsNode) (prop : String) (line : Nat)
  | identE (name : String) (line : Nat)
  | strLit (value : String) (line : Nat)
  | varDeclarator (id : Option String) (init : JsNode) (line : Nat)
  | propNode (key : Option String) (value : JsNode) (line : Nat)
  | other (children : List JsNode) (line : Nat)

/-- Nodes whose type is `FunctionDeclaration`, `FunctionExpression` or
`ArrowFunctionExpression` (source lines 246-248 and 289-299). -/
def isFunctionNode : JsNode → Bool
  | .funcDecl _ _ _ _ => true
  | .funcExpr _ _ _ => true
  | .arrowExpr _ _ _ => true
  | _ => false

/-- The deny-list of host/runtime built-ins (source lines 262-264). -/
def builtins : List String :=
  ["console", "require", "setTimeout", "setInterval", "clearTimeout",
   "clearInterval", "Math", "Array", "Set", "Map", "Object", "parseInt",
   "parseFloat", "isNaN", "isFinite"]

/-- Embedding of `getCalleeName` (source lines 306-333).  For a call through
an identifier it is the identifier; for a call or member access `a.b` it is
`"a.b"` when the object is an identifier and just the property name
otherwise; for every other node it is `null` (here `none`). -/
def getCalleeName : JsNode → Option String
  | .callExpr callee _ _ =>
      match callee with
      | .identE n _ => some n
      | .memberExpr obj prop _ =>
          match obj with
          | .identE ob _ => some (ob ++ "." ++ prop)
          | _ => some prop
      | _ => none
  | .memberExpr obj prop _ =>
      match obj with
      | .identE ob _ => some (ob ++ "." ++ prop)
      | _ => some prop
  | _ => none

/-- Treatment of one `CallExpression` node by `extractCalls` (source lines
253-280), before its children are visited: a direct identifier call not on
the deny-list and not yet recorded is appended and counts toward fan-out; a
member call is appended (when its resolved name is non-empty, the JS
truthiness test) without touching fan-out; any other callee shape records
nothing. -/
def extractHead (callee : JsNode) (args : List JsNode) (l : Nat)
    (acc : List String × Nat) : List String × Nat :=
  match callee with
  | .identE nm _ =>
      if nm ∉ builtins ∧ nm ∉ acc.1 then (acc.1 ++ [nm], acc.2 + 1) else acc
  | .memberExpr o p lm =>
      match getCalleeName (.callExpr (.memberExpr o p lm) args l) with
      | some cn => if cn ≠ "" ∧ cn ∉ acc.1 then (acc.1 ++ [cn], acc.2) else acc
      | none => acc
  | _ => acc

mutual
/-- Embedding of `extractCalls` (source lines 241-304).  The accumulator is
the pair (funcInfo.calls, funcInfo.fanOut).  A function-definition node is
never entered (early return, lines 246-251); a call node is treated by
`extractHead`; then the children are visited in property order, skipping
function-typed children (lines 283-303). -/
def extractCalls (n : JsNode) (acc : List String × Nat) : List String × Nat :=
  match n with
  | .funcDecl _ _ _ _ => acc
  | .funcExpr _ _ _ => acc
  | .arrowExpr _ _ _ => acc
  | .callExpr callee args l =>
      let acc1 := extractHead callee args l acc
      let acc2 := if isFunctionNode callee then acc1 else extractCalls callee acc1
      extractCallsSeq args acc2
  | .memberExpr obj _ _ =>
      if isFunctionNode obj then acc else extractCalls obj acc
  | .identE _ _ => acc
  | .strLit _ _ => acc
  | .varDeclarator _ i _ => if isFunctionNode i then acc else extractCalls i acc
  | .propNode _ v _ => if isFunctionNode v then acc else extractCalls v acc
  | .other cs _ => extractCallsSeq cs acc

/-- Child-list walk of `extractCalls`: each non-function child is visited in
order (function-typed children are skipped, lines 287-299). -/
def extractCallsSeq (ns : List JsNode) (acc : List String × Nat) : List String × Nat :=
  match ns with
  | [] => acc
  | x :: xs => extractCallsSeq xs (if isFunctionNode x then acc else extractCalls x acc)
end

/-- First string-literal argument of a call (source lines 101-103:
`parent.arguments.find(arg => arg.type === 'Literal' && typeof arg.value ===
'string')`). -/
def firstStrLit (args : List JsNode) : Option String :=
  args.findSome? fun a => match a with | .strLit s _ => some s | _ => none

/-- Name produced by the callback-argument rule at one ancestor (source
lines 93-117): the ancestor is a call whose callee is a member access with
an identifier object; the name is `<object>.<method>_<firstStringArg>`, or
`<object>.<method>_handler` when the call has no string-literal argument.
`none` when the rule does not fire (then the walk continues upward). -/
def callRuleName : JsNode → Option String
  | .callExpr callee args _ =>
      match callee with
      | .memberExpr obj prop _ =>
          match obj with
          | .identE objName _ =>
              match firstStrLit args with
              | some v => some (objName ++ "." ++ prop ++ "_" ++ v)
              | none => some (objName ++ "." ++ prop ++ "_handler")
          | _ => none
      | _ => none
  | _ => none

/-- The synthesized fallback name `anonymous_<counter>`. -/
def anonName (c : Nat) : String := "anonymous_" ++ toString c

/-- Embedding of the anonymous-function naming walk (source lines 85-137).
`isArg` records whether the function node is literally an element of its
immediate parent's `arguments` array — `parent.arguments.includes(node)`
compares object references, so the rule can only fire at the immediate
parent.  The chain holds the ancestors innermost first; reaching a
function-typed ancestor ends the walk without a match because the source has
replaced that node's `parent` pointer by its metadata record (line 215),
which matches none of the rules and has no parent itself.  Returns the
resolved name and the updated per-file anonymous counter. -/
def walkAnonName : Bool → List JsNode → Nat → String × Nat
  | _, [], c => (anonName c, c + 1)
  | isArg, a :: rest, c =>
      match a with
      | .funcDecl _ _ _ _ => (anonName c, c + 1)
      | .funcExpr _ _ _ => (anonName c, c + 1)
      | .arrowExpr _ _ _ => (anonName c, c + 1)
      | .callExpr callee args l =>
          if isArg then
            match callRuleName (.callExpr callee args l) with
            | some nm => (nm, c)
            | none => walkAnonName false rest c
          else walkAnonName false rest c
      | .varDeclarator id _ _ =>
          (match id with
           | some s => (s, c)
           | none => (anonName c, c + 1))
      | .propNode key _ _ =>
          (match key with
           | some s => (s, c)
           | none => (anonName c, c + 1))
      | _ => walkAnonName false rest c

/-- Parameter name as the `FunctionDeclaration` branch maps it (source lines
75-78): identifiers keep their name, everything else becomes "unnamed". -/
def declParamName : JsPat → String
  | .identP s => s
  | _ => "unnamed"

/-- Parameter name as the function/arrow-expression branch maps it (source
lines 143-148). -/
def exprParamName : JsPat → String
  | .identP s => s
  | .objectPat => "object"
  | .arrayPat => "array"
  | .otherPat => "unnamed"

/-- One resolved function definition (the `funcInfo` objects of source lines
71-84 and 139-154).  `modName` is the source field `module`; `kind` is the
source field `type` ("function" or "arrow"). -/
structure FuncInfo where
  name : String
  file : String
  modName : String
  params : List String
  calls : List String
  fanIn : Nat
  fanOut : Nat
  line : Nat
  kind : String
deriving Repr, DecidableEq

/-- One file-level call record (source lines 200-204): pushed for call and
member-access nodes met outside a function-definition node position.
`ctype` is the source field `type` ("CallExpression" / "MemberExpression"). -/
structure FileCall where
  name : String
  line : Nat
  ctype : String
deriving Repr, DecidableEq

/-- One record of the global `this.calls` array (source lines 205-209):
`src` is the source field `from` (the file path), `tgt` the field `to`. -/
structure GlobalCall where
  src : String
  tgt : String
  line : Nat
deriving Repr, DecidableEq

/-- One analyzed file (source lines 32-43).  The `imports`/`exports` arrays
are informational only (no metric reads them) and are not modelled.
Instead of the float field `cohesion` we keep the exact pair written by
`calculateCohesion` via `cohesionShared`/`cohesionPairs` (see there). -/
structure FileInfo where
  path : String
  modName : String
  functions : List FuncInfo
  calls : List FileCall
  fanIn : Nat
  fanOut : Nat
deriving Repr, DecidableEq

/-- Accumulator of one file's traversal: the growing `fileInfo.functions`,
`fileInfo.calls`, the growing global `this.calls` contribution, and the
per-file anonymous-function counter. -/
structure TravAcc where
  functions : List FuncInfo
  fcalls : List FileCall
  gcalls : List GlobalCall
  counter : Nat
deriving Repr, DecidableEq

/-- The file-level record (if any) one call or member node produces (source
lines 197-204): its `getCalleeName`, unless that name is falsy (empty),
`"require"` or `"console"`, or cannot be derived at all. -/
def fileCallEntry (n : JsNode) (l : Nat) (t : String) : List FileCall :=
  match getCalleeName n with
  | some cn =>
      if cn ≠ "" ∧ cn ≠ "require" ∧ cn ≠ "console" then
        [{ name := cn, line := l, ctype := t }]
      else []
  | none => []

/-- File-level call recording (source lines 196-211): for a call or member
node in non-function position, push a record named by `getCalleeName` unless
that name is falsy (empty), `"require"` or `"console"`. -/
def recordFileCall (p : String) (n : JsNode) (l : Nat) (t : String) (acc : TravAcc) : TravAcc :=
  match getCalleeName n with
  | some cn =>
      if cn ≠ "" ∧ cn ≠ "require" ∧ cn ≠ "console" then
        { acc with
          fcalls := acc.fcalls ++ [{ name := cn, line := l, ctype := t }],
          gcalls := acc.gcalls ++ [{ src := p, tgt := cn, line := l }] }
      else acc
  | none => acc

/-- Duplicate-definition check of source line 164: a function with the same
resolved name and the same declaration line is already recorded. -/
def hasFuncNamed (fs : List FuncInfo) (nm : String) (l : Nat) : Bool :=
  fs.any fun f => f.name == nm && f.line == l

mutual
/-- Embedding of the `traverse` closure of `analyzeAST` (source lines
62-236) for file path `p` and module name `mn`.  Every node is processed
then its children are visited in property order; `chain` is the ancestor
chain (innermost first) that replaces the `parent` pointers, and `isArg`
says whether this node is an element of its immediate parent's `arguments`
array (the reference-equality test of line 93 can hold only there).  A
function-definition node resolves its name (lines 69-137), extracts its
body's calls (lines 157-161) and is appended unless a function with the same
name and line exists (lines 163-172); a call/member node in non-function
position is recorded at file level (lines 196-211). -/
def travNode (p mn : String) (isArg : Bool) (chain : List JsNode) (n : JsNode) (acc : TravAcc) : TravAcc :=
  match n with
  | .funcDecl nameOpt ps body l =>
      let nc : String × Nat :=
        match nameOpt with
        | some s => (s, acc.counter)
        | none => (anonName acc.counter, acc.counter + 1)
      let ec := extractCalls body ([], 0)
      let fi : FuncInfo :=
        { name := nc.1, file := p, modName := mn, params := ps.map declParamName,
          calls := ec.1, fanIn := 0, fanOut := ec.2, line := l, kind := "function" }
      let acc1 := { acc with counter := nc.2 }
      let acc2 :=
        if hasFuncNamed acc1.functions nc.1 l then acc1
        else { acc1 with functions := acc1.functions ++ [fi] }
      travNode p mn false (n :: chain) body acc2
  | .funcExpr ps body l =>
      let nc := walkAnonName isArg chain acc.counter
      let ec := extractCalls body ([], 0)
      let fi : FuncInfo :=
        { name := nc.1, file := p, modName := mn, params := ps.map exprParamName,
          calls := ec.1, fanIn := 0, fanOut := ec.2, line := l, kind := "function" }
      let acc1 := { acc with counter := nc.2 }
      let acc2 :=
        if hasFuncNamed acc1.functions nc.1 l then acc1
        else { acc1 with functions := acc1.functions ++ [fi] }
      travNode p mn false (n :: chain) body acc2
  | .arrowExpr ps body l =>
      let nc := walkAnonName isArg chain acc.counter
      let ec := extractCalls body ([], 0)
      let fi : FuncInfo :=
        { name := nc.1, file := p, modName := mn, params := ps.map exprParamName,
          calls := ec.1, fanIn := 0, fanOut := ec.2, line := l, kind := "arrow" }
      let acc1 := { acc with counter := nc.2 }
      let acc2 :=
        if hasFuncNamed acc1.functions nc.1 l then acc1
        else { acc1 with functions := acc1.functions ++ [fi] }
      travNode p mn false (n :: chain) body acc2
  | .callExpr callee args l =>
      let acc1 := recordFileCall p (.callExpr callee args l) l "CallExpression" acc
      let acc2 := travNode p mn false (n :: chain) callee acc1
      travArgs p mn (n :: chain) args acc2
  | .memberExpr obj prop l =>
      let acc1 := recordFileCall p (.memberExpr obj prop l) l "MemberExpression" acc
      travNode p mn false (n :: chain) obj acc1
  | .identE _ _ => acc
  | .strLit _ _ => acc
  | .varDeclarator _ i _ => travNode p mn false (n :: chain) i acc
  | .propNode _ v _ => travNode p mn false (n :: chain) v acc
  | .other cs _ => travSeq p mn (n :: chain) cs acc

/-- Ordinary child-list walk of `traverse` (children that are not call
arguments). -/
def travSeq (p mn : String) (chain : List JsNode) (ns : List JsNode) (acc : TravAcc) : TravAcc :=
  match ns with
  | [] => acc
  | x :: xs => travSeq p mn chain xs (travNode p mn false chain x acc)

/-- Walk of a call's `arguments` array: each element is visited with
`isArg = true`. -/
def travArgs (p mn : String) (chain : List JsNode) (ns : List JsNode) (acc : TravAcc) : TravAcc :=
  match ns with
  | [] => acc
  | x :: xs => travArgs p mn chain xs (travNode p mn true chain x acc)
end

/-- Embedding of `analyzeAST` (source lines 59-239) run on a whole file:
returns the file record and the file's contribution to the global
`this.calls` array. -/
def analyzeAST (p mn : String) (ast : JsNode) : FileInfo × List GlobalCall :=
  let t := travNode p mn false [] ast ⟨[], [], [], 0⟩
  ({ path := p, modName := mn, functions := t.functions, calls := t.fcalls,
     fanIn := 0, fanOut := 0 }, t.gcalls)

/-- Model of `path.basename(filePath, path.extname(filePath))` (source line
31): the part of the path after the last `/`, with the extension after the
last `.` removed (a lone leading dot, as in `.bashrc`, is no extension). -/
def basenameNoExt (p : String) : String :=
  let base := ((splitOnSlash p).getLast?).getD p
  let segs := splitOnDot base
  match segs with
  | [] => base
  | [_] => base
  | "" :: [_] => base
  | _ => String.intercalate "." segs.dropLast

/-- One source file handed to the analyzer: its path and its parse result
(`none` when esprima throws, i.e. the file cannot be parsed). -/
structure SrcFile where
  path : String
  ast : Option JsNode

/-- The analyzer's global state: `this.modules` (a Map keyed by file path,
kept in insertion order) and `this.calls`. -/
structure AnalyzerState where
  modules : List FileInfo
  calls : List GlobalCall
deriving Repr, DecidableEq

/-- JavaScript `Map.set` on the modules map: replace the entry with the same
path in place, else append. -/
def modulesSet (ms : List FileInfo) (fi : FileInfo) : List FileInfo :=
  if ms.any (fun m => m.path == fi.path) then
    ms.map fun m => if m.path == fi.path then fi else m
  else ms ++ [fi]

/-- Embedding of `analyzeFile` (source lines 28-57) together with what it
prints.  On parse failure the `catch` block (lines 54-56) is empty — the
file is skipped and nothing is emitted, so the returned output list is empty
on both paths. -/
def analyzeFileWithOutput (st : AnalyzerState) (f : SrcFile) : AnalyzerState × List String :=
  match f.ast with
  | none => (st, [])
  | some ast =>
      let mn := basenameNoExt f.path
      let r := analyzeAST f.path mn ast
      ({ modules := modulesSet st.modules r.1, calls := st.calls ++ r.2 }, [])

/-- Embedding of `analyzeFile`, state part only. -/
def analyzeFile (st : AnalyzerState) (f : SrcFile) : AnalyzerState :=
  (analyzeFileWithOutput st f).1

/-- The driver loop over all discovered files (source lines 857-860). -/
def analyzeFiles (fs : List SrcFile) : AnalyzerState :=
  fs.foldl analyzeFile ⟨[], []⟩

/-- All function records in analyzer-state order: the values of
`this.functions`.  A record is entered into that Map exactly when it is
pushed onto its file's list (source lines 163-172), so the Map's values are
the per-module lists concatenated in module insertion order. -/
def functionsOf (st : AnalyzerState) : List FuncInfo :=
  st.modules.flatMap (·.functions)

/-- The dedup key `${func.name}_${func.line}` (source lines 353, 371). -/
def nameLineKey (f : FuncInfo) : String := f.name ++ "_" ++ toString f.line

/-- Helper for `uniqueByNameLine`, carrying the set of keys seen so far. -/
def uniqueByNameLineAux : List String → List FuncInfo → List FuncInfo
  | _, [] => []
  | seen, f :: fs =>
      if nameLineKey f ∈ seen then uniqueByNameLineAux seen fs
      else f :: uniqueByNameLineAux (nameLineKey f :: seen) fs

/-- The `uniqueFunctions` filter of source lines 350-359: keep the first
record for every `${name}_${line}` key. -/
def uniqueByNameLine (fs : List FuncInfo) : List FuncInfo :=
  uniqueByNameLineAux [] fs

/-- `Set.add`: append a key unless already present. -/
def addUnique (l : List String) (k : String) : List String :=
  if k ∈ l then l else l ++ [k]

/-- Guard of the intra-module pass (source lines 364-368): another function
of the same module (the `!==` identity test coincides with
`${name}_${line}` key inequality, the keys being unique within
`uniqueFunctions`) whose `calls` array contains this function's name
(`callCount > 0`). -/
def intraGuard (f g : FuncInfo) : Bool :=
  nameLineKey g != nameLineKey f && g.calls.contains f.name

/-- Guard of the cross-file pass (source line 391): the call comes from a
different file and its target is exactly this function's name. -/
def crossGuard (f : FuncInfo) (c : GlobalCall) : Bool :=
  c.src != f.file && c.tgt == f.name

/-- The set of unique caller identifiers collected for one function by
`calculateFanInFanOut` (source lines 335-400): first the intra-module pass
(lines 349-383) adds `${caller.name}_${caller.line}` for every same-module
caller, then the cross-file pass (lines 387-400) adds the caller file path
of every matching global call record.  The function's final `fanIn` is the
size of this set. -/
def computeCallers (st : AnalyzerState) (f : FuncInfo) : List String :=
  let intra : List String :=
    match st.modules.find? (fun m => m.path == f.file) with
    | some m =>
        (uniqueByNameLine m.functions).foldl
          (fun acc g => if intraGuard f g then addUnique acc (nameLineKey g) else acc) []
    | none => []
  st.calls.foldl
    (fun acc c => if crossGuard f c then addUnique acc c.src else acc)
    intra

/-- Module-level fan-out (source lines 404-417): the number of distinct base
objects among the module's file-level calls whose name is not one of the
module's function names and has no dot-segment equal to one. -/
def moduleFanOut (m : FileInfo) : Nat :=
  let fnames := m.functions.map (·.name)
  let ext := m.calls.filter fun c =>
    c.name ∉ fnames ∧ ¬ ((splitOnDot c.name).any (fun s => s ∈ fnames))
  (ext.map fun c =>
    let segs := splitOnDot c.name
    if segs.length > 1 then segs.headD "" else c.name).dedup.length

/-- Module-level fan-in (source lines 419-448): cross-file call records
matching any of the module's functions (counted with multiplicity, by name
equality, substring containment, or second dot-segment equality) plus the
number of distinct ordered intra-module caller→callee name pairs. -/
def moduleFanIn (st : AnalyzerState) (m : FileInfo) : Nat :=
  let crossCount := (st.calls.map fun c =>
    if c.src ≠ m.path then
      (m.functions.filter fun f =>
        c.tgt = f.name ∨ strIncludes c.tgt f.name = true ∨
          (strIncludes c.tgt "." = true ∧ (splitOnDot c.tgt).get? 1 = some f.name)).length
    else 0).sum
  let ip := m.functions.enum.flatMap fun a =>
    m.functions.enum.filterMap fun b =>
      if a.1 ≠ b.1 ∧
          (a.2.calls.any fun c => c == b.2.name || strIncludes c b.2.name) = true then
        some (a.2.name ++ "->" ++ b.2.name)
      else none
  crossCount + ip.dedup.length

/-- Embedding of `calculateFanInFanOut` (source lines 335-450): every
function's `fanIn` becomes the size of its unique-caller set, then every
module's `fanOut`/`fanIn` are derived.  (`fanOut` of a function was already
fixed during extraction and is untouched here.) -/
def calculateFanInFanOut (st : AnalyzerState) : AnalyzerState :=
  let st1 : AnalyzerState :=
    { st with
      modules := st.modules.map fun m =>
        { m with functions := m.functions.map fun f =>
            { f with fanIn := (computeCallers st f).length } } }
  { st1 with
    modules := st1.modules.map fun m =>
      { m with fanOut := moduleFanOut m, fanIn := moduleFanIn st1 m } }

/-- One entry of the list `calculateInformationFlowComplexity` returns
(source lines 655-662); `ifc` is the field `informationFlowComplexity`. -/
structure IFCEntry where
  funcName : String
  modName : String
  fanIn : Nat
  fanOut : Nat
  ifc : Nat
  rating : String
deriving Repr, DecidableEq

/-- The IFC score (source lines 643-646): `(fanIn * fanOut)^2` when both are
positive, `0` otherwise. -/
def ifcValue (fi fo : Nat) : Nat :=
  if fi > 0 ∧ fo > 0 then (fi * fo) ^ 2 else 0

/-- The IFC rating chain (source lines 648-653). -/
def ifcRating (fi fo ifc : Nat) : String :=
  if ifc > 100 then "Very High"
  else if ifc > 25 then "High"
  else if ifc > 5 then "Medium"
  else if fi = 0 ∧ fo = 0 then "None"
  else if fi = 0 ∨ fo = 0 then "Low"
  else "Low"

/-- Embedding of `calculateInformationFlowComplexity` (source lines
637-666). -/
def calculateInformationFlowComplexity (st : AnalyzerState) : List IFCEntry :=
  (functionsOf st).map fun f =>
    let v := ifcValue f.fanIn f.fanOut
    { funcName := f.name, modName := f.modName, fanIn := f.fanIn,
      fanOut := f.fanOut, ifc := v, rating := ifcRating f.fanIn f.fanOut v }

/-- Base dependency of one outgoing call name (source lines 570-578): the
part before the first dot when the name contains a dot, else the whole
name. -/
def baseDep (c : String) : String :=
  if strIncludes c "." then (splitOnDot c).headD "" else c

/-- The dependency set of one function (source lines 569-580); a list with
membership semantics stands for the JS `Set`. -/
def depsOf (f : FuncInfo) : List String := f.calls.map baseDep

/-- Cohesion evidence 1 (source lines 592-596): one function's outgoing
calls contain the other's name exactly or as a substring. -/
def callsEachOther (f1 f2 : FuncInfo) : Bool :=
  (f1.calls.any fun c => c == f2.name || strIncludes c f2.name) ||
  (f2.calls.any fun c => c == f1.name || strIncludes c f1.name)

/-- Cohesion evidence 2 (source lines 599-603).  The second disjunct of the
source compares `p === p2 || (typeof p === 'string' && typeof p2 ===
'string')`; the parameter lists always hold strings, so the `typeof` clause
is identically true, which is written here literally as `|| true`. -/
def sharedParamsCheck (f1 f2 : FuncInfo) : Bool :=
  (f1.params.any fun p => f2.params.contains p) ||
  (f1.params.any fun p => f2.params.any fun q => p == q || true)

/-- Cohesion evidence 3 (source line 606): a common base dependency. -/
def sharedDepsCheck (f1 f2 : FuncInfo) : Bool :=
  (depsOf f1).any fun d => (depsOf f2).contains d

/-- Cohesion evidence 4 (source lines 609-611): both names contain the same
domain keyword. -/
def similarDataCheck (f1 f2 : FuncInfo) : Bool :=
  (strIncludes f1.name "room" && strIncludes f2.name "room") ||
  (strIncludes f1.name "canvas" && strIncludes f2.name "canvas") ||
  (strIncludes f1.name "user" && strIncludes f2.name "user")

/-- A pair counts toward `sharedReferences` iff one of the four evidence
checks holds (source line 613). -/
def pairEvidence (f1 f2 : FuncInfo) : Bool :=
  callsEachOther f1 f2 || sharedParamsCheck f1 f2 ||
    sharedDepsCheck f1 f2 || similarDataCheck f1 f2

/-- The ordered list of index pairs i < j as the nested loops of source
lines 582-583 produce them. -/
def pairList (fs : List FuncInfo) : List (FuncInfo × FuncInfo) :=
  match fs with
  | [] => []
  | f :: rest => rest.map (fun g => (f, g)) ++ pairList rest

/-- One entry of the list `calculateCohesion` returns (source lines 543-547,
552-556 and 623-629).  The float `cohesion` is kept exactly as the pair
`sharedReferences / totalPairs` (the two N ≤ 1 branches, which store the
number 1 with a reason, are represented as 1/1); `cohesionValue` below is
the numeric view.  `rating`/`reason` are empty in the branches that do not
set them. -/
structure CohesionEntry where
  modName : String
  sharedReferences : Nat
  totalPairs : Nat
  rating : String
  reason : String
deriving Repr, DecidableEq

/-- The cohesion number of an entry, `sharedReferences / totalPossiblePairs`
(source lines 619-621). -/
def cohesionValue (e : CohesionEntry) : Rat :=
  (e.sharedReferences : Rat) / (e.totalPairs : Rat)

/-- The rating ternary of source line 628, `cohesion > 0.7 ? 'High' :
cohesion > 0.3 ? 'Medium' : 'Low'`, written by cross-multiplication (this
branch always has `totalPairs > 0`, see `cohesionRating_spec`). -/
def cohesionRating (sh tot : Nat) : String :=
  if 10 * sh > 7 * tot then "High"
  else if 10 * sh > 3 * tot then "Medium"
  else "Low"

/-- Embedding of `calculateCohesion` (source lines 538-635). -/
def calculateCohesion (st : AnalyzerState) : List CohesionEntry :=
  st.modules.map fun m =>
    if m.functions.length = 0 then
      { modName := m.modName, sharedReferences := 1, totalPairs := 1,
        rating := "", reason := "No functions to measure" }
    else if m.functions.length = 1 then
      { modName := m.modName, sharedReferences := 1, totalPairs := 1,
        rating := "", reason := "Single function module" }
    else
      let prs := pairList m.functions
      let sh := (prs.filter fun q => pairEvidence q.1 q.2).length
      { modName := m.modName, sharedReferences := sh, totalPairs := prs.length,
        rating := cohesionRating sh prs.length, reason := "" }

/-- One coupling pair (source lines 491-496 and 517-522); `ctype` is the
source field `type` ("tight" / "loose"). -/
structure CouplingPair where
  module1 : String
  module2 : String
  calls : Nat
  ctype : String
deriving Repr, DecidableEq

/-- What `calculateCoupling` returns (source lines 453-457). -/
structure CouplingMetrics where
  tightCoupling : Nat
  looseCoupling : Nat
  couplingPairs : List CouplingPair
deriving Repr, DecidableEq

/-- The fixed functional groups of the single-module branch (source lines
466-470), in declaration order. -/
def functionalGroups : List (String × List String) :=
  [("room-management", ["generateRoomId", "create", "join"]),
   ("socket-handlers", ["connection", "create-room", "join-room", "draw",
     "canvas-state", "disconnect"]),
   ("canvas-management", ["canvas-state", "canvasState"])]

/-- The `callsBetween` count for an ordered group pair (source lines
479-488): calls of functions whose name contains a keyword of the first
group whose target contains a keyword of the second group. -/
def groupCallCount (m : FileInfo) (g1 g2 : List String) : Nat :=
  (m.functions.map fun f =>
    if g1.any (fun k => strIncludes f.name k) then
      (f.calls.filter fun c => g2.any (fun k => strIncludes c k)).length
    else 0).sum

/-- The single-module pair loop (source lines 473-505): for indices i < j in
group order, an entry appears exactly when the directed count from group i
to group j is positive. -/
def couplingPairsSingle (m : FileInfo) : List CouplingPair :=
  (List.range functionalGroups.length).flatMap fun i =>
    (List.range functionalGroups.length).filterMap fun j =>
      if i < j then
        match functionalGroups.get? i, functionalGroups.get? j with
        | some gi, some gj =>
            let n := groupCallCount m gi.2 gj.2
            if n > 0 then
              some { module1 := gi.1, module2 := gj.1, calls := n,
                     ctype := if n > 5 then "tight" else "loose" }
            else none
        | _, _ => none
      else none

/-- The multi-module pair loop (source lines 508-532). -/
def couplingPairsMulti (st : AnalyzerState) : List CouplingPair :=
  st.modules.flatMap fun m1 =>
    st.modules.filterMap fun m2 =>
      if m1.path < m2.path then
        let n := (st.calls.filter fun c =>
          (c.src = m1.path ∧ strIncludes c.tgt m2.modName = true) ∨
          (c.src = m2.path ∧ strIncludes c.tgt m1.modName = true)).length
        if n > 0 then
          some { module1 := m1.modName, module2 := m2.modName, calls := n,
                 ctype := if n > 5 then "tight" else "loose" }
        else none
      else none

/-- Embedding of `calculateCoupling` (source lines 452-536): the
single-module branch runs over the fixed functional groups, otherwise pairs
of modules are compared; the tight/loose counters tally the pushed pairs by
the same `> 5` threshold. -/
def calculateCoupling (st : AnalyzerState) : CouplingMetrics :=
  let prs :=
    match st.modules with
    | [m] => couplingPairsSingle m
    | _ => couplingPairsMulti st
  { tightCoupling := (prs.filter fun e => e.calls > 5).length,
    looseCoupling := (prs.filter fun e => ¬ e.calls > 5).length,
    couplingPairs := prs }

/-- Names `extractHead` can record for one call node, tagged `true` for a
direct identifier call (after the deny-list filter) and `false` for a member
call with non-empty resolved name. -/
def tlHead (callee : JsNode) (args : List JsNode) (l : Nat) : List (Bool × String) :=
  match callee with
  | .identE nm _ => if nm ∉ builtins then [(true, nm)] else []
  | .memberExpr o p lm =>
      (match getCalleeName (.callExpr (.memberExpr o p lm) args l) with
       | some cn => if cn ≠ "" then [(false, cn)] else []
       | none => [])
  | _ => []

mutual
/-- Tagged call names in the lexical top-level region of a node: the calls
`extractCalls` can reach, i.e. those not separated from the node by a
function-definition boundary.  A `(true, nm)` entry is a direct identifier
call that passes the deny-list filter, a `(false, nm)` entry a member call
with non-empty resolved name.  The recursion skips function-definition nodes
and function-typed children exactly as `extractCalls` does. -/
def tlCallNames (n : JsNode) : List (Bool × String) :=
  match n with
  | .funcDecl _ _ _ _ => []
  | .funcExpr _ _ _ => []
  | .arrowExpr _ _ _ => []
  | .callExpr callee args l =>
      tlHead callee args l ++
      (if isFunctionNode callee then [] else tlCallNames callee) ++
      tlCallNamesSeq args
  | .memberExpr obj _ _ => if isFunctionNode obj then [] else tlCallNames obj
  | .identE _ _ => []
  | .strLit _ _ => []
  | .varDeclarator _ i _ => if isFunctionNode i then [] else tlCallNames i
  | .propNode _ v _ => if isFunctionNode v then [] else tlCallNames v
  | .other cs _ => tlCallNamesSeq cs

/-- List version of `tlCallNames` (function-typed children skipped). -/
def tlCallNamesSeq (ns : List JsNode) : List (Bool × String) :=
  match ns with
  | [] => []
  | x :: xs => (if isFunctionNode x then [] else tlCallNames x) ++ tlCallNamesSeq xs
end

/-- Direct-identifier call names in the top-level region of a node (after
the deny-list filter). -/
def tlDirectNames (n : JsNode) : List String :=
  (tlCallNames n).filterMap fun t => if t.1 then some t.2 else none

/-- Member-call names in the top-level region of a node. -/
def tlMemberNames (n : JsNode) : List String :=
  (tlCallNames n).filterMap fun t => if t.1 then none else some t.2

mutual
/-- The file-level call records generated below a node, in traversal order:
one record per call or member-access node — nested function bodies included —
whose resolved name is non-empty and neither `"require"` nor `"console"`.
`travNode` produces exactly this list (theorem `travNode_fcalls`). -/
def fileCallCollect (n : JsNode) : List FileCall :=
  match n with
  | .funcDecl _ _ body _ => fileCallCollect body
  | .funcExpr _ body _ => fileCallCollect body
  | .arrowExpr _ body _ => fileCallCollect body
  | .callExpr callee args l =>
      fileCallEntry (.callExpr callee args l) l "CallExpression" ++
        fileCallCollect callee ++ fileCallCollectSeq args
  | .memberExpr obj p l =>
      fileCallEntry (.memberExpr obj p l) l "MemberExpression" ++
        fileCallCollect obj
  | .identE _ _ => []
  | .strLit _ _ => []
  | .varDeclarator _ i _ => fileCallCollect i
  | .propNode _ v _ => fileCallCollect v
  | .other cs _ => fileCallCollectSeq cs

/-- List version of `fileCallCollect`. -/
def fileCallCollectSeq (ns : List JsNode) : List FileCall :=
  match ns with
  | [] => []
  | x :: xs => fileCallCollect x ++ fileCallCollectSeq xs
end

mutual
/-- Modelled from the spec wording of claim C10: the number of
`CallExpression` and `MemberExpression` nodes anywhere in a file whose
derived callee name is not exactly `"require"` or `"console"` (a node whose
name cannot be derived at all is still counted: the spec names only those
two names as reasons to omit an entry). -/
def specC10Count (n : JsNode) : Nat :=
  match n with
  | .funcDecl _ _ body _ => specC10Count body
  | .funcExpr _ body _ => specC10Count body
  | .arrowExpr _ body _ => specC10Count body
  | .callExpr callee args l =>
      (if getCalleeName (.callExpr callee args l) = some "require" ∨
          getCalleeName (.callExpr callee args l) = some "console" then 0 else 1) +
        specC10Count callee + specC10CountSeq args
  | .memberExpr obj p l =>
      (if getCalleeName (.memberExpr obj p l) = some "require" ∨
          getCalleeName (.memberExpr obj p l) = some "console" then 0 else 1) +
        specC10Count obj
  | .identE _ _ => 0
  | .strLit _ _ => 0
  | .varDeclarator _ i _ => specC10Count i
  | .propNode _ v _ => specC10Count v
  | .other cs _ => specC10CountSeq cs

/-- List version of `specC10Count`. -/
def specC10CountSeq (ns : List JsNode) : Nat :=
  match ns with
  | [] => 0
  | x :: xs => specC10Count x + specC10CountSeq xs
end

/-- Modelled from the spec wording of claim C2: the number of distinct
functions anywhere in the project, other than `f` itself, whose outgoing
call list contains `f`'s name. -/
def specDistinctCallingFunctions (st : AnalyzerState) (f : FuncInfo) : Nat :=
  ((functionsOf st).filter fun g =>
    ¬ (g.file = f.file ∧ g.name = f.name ∧ g.line = f.line) ∧ f.name ∈ g.calls).length

/-- Claim C2 as stated: every function's fan-in is bounded by the number of
distinct calling functions across the entire project. -/
def specClaimC2 (st : AnalyzerState) : Prop :=
  ∀ f ∈ functionsOf st, f.fanIn ≤ specDistinctCallingFunctions st f

/-- Count of same-module caller functions of `f` (callers of the
intra-module pass, each counted once). -/
def intraCallerCount (st : AnalyzerState) (f : FuncInfo) : Nat :=
  match st.modules.find? (fun m => m.path == f.file) with
  | some m => ((uniqueByNameLine m.functions).filter (intraGuard f)).length
  | none => 0

/-- Count of distinct other files holding a file-level call record whose
target is exactly `f`'s name (callers of the cross-file pass). -/
def crossFileCount (st : AnalyzerState) (f : FuncInfo) : Nat :=
  ((st.calls.filter (crossGuard f)).map (fun c => c.src)).dedup.length

/-- Spec-side cohesion evidence for claim C5, clause (ii): the two functions
share a parameter name.  Clauses (i), (iii) and (iv) of the spec coincide
with the source checks `callsEachOther`, `sharedDepsCheck` and
`similarDataCheck`. -/
def specSharesParamName (f1 f2 : FuncInfo) : Bool :=
  f1.params.any fun p => f2.params.contains p

/-- Modelled from the spec wording of claim C5: a pair is related iff one of
the four spec clauses holds. -/
def specPairEvidence (f1 f2 : FuncInfo) : Bool :=
  callsEachOther f1 f2 || specSharesParamName f1 f2 ||
    sharedDepsCheck f1 f2 || similarDataCheck f1 f2

/-- Claim C5's consequence as stated: a module none of whose function pairs
shows spec-evidence yields cohesion 0 with rating "Low". -/
def specClaimC5 (st : AnalyzerState) : Prop :=
  ∀ m ∈ st.modules,
    (∀ f1 ∈ m.functions, ∀ f2 ∈ m.functions, f1 ≠ f2 → specPairEvidence f1 f2 = false) →
    ∀ e ∈ calculateCohesion st, e.modName = m.modName →
      cohesionValue e = 0 ∧ e.rating = "Low"

/-- Lookup of the coupling entry for a given ordered pair of group names. -/
def couplingEntryFor (cm : CouplingMetrics) (g1 g2 : String) : Option CouplingPair :=
  cm.couplingPairs.find? fun e => e.module1 == g1 && e.module2 == g2

/-- The i-th functional group (name, keywords). -/
def groupAt (i : Nat) : String × List String :=
  functionalGroups.getD i ("", [])

/-- Modelled from the spec wording of claim C7: the undirected count for a
group pair — calls made by a function in either group whose target contains
a keyword of the other group. -/
def specSymGroupCalls (m : FileInfo) (g1 g2 : List String) : Nat :=
  groupCallCount m g1 g2 + groupCallCount m g2 g1

/-- Claim C7 as stated, for a single-module state: every unordered group
pair gets an entry exactly when its (undirected) call count is positive,
carrying that count and the tight/loose classification. -/
def specClaimC7 (st : AnalyzerState) : Prop :=
  st.modules.length = 1 →
  ∀ m ∈ st.modules, ∀ i ∈ List.range functionalGroups.length,
    ∀ j ∈ List.range functionalGroups.length, i < j →
      couplingEntryFor (calculateCoupling st) (groupAt i).1 (groupAt j).1 =
        (if specSymGroupCalls m (groupAt i).2 (groupAt j).2 > 0 then
          some { module1 := (groupAt i).1, module2 := (groupAt j).1,
                 calls := specSymGroupCalls m (groupAt i).2 (groupAt j).2,
                 ctype := if specSymGroupCalls m (groupAt i).2 (groupAt j).2 > 5
                          then "tight" else "loose" }
        else none)

/-- Claim C8 as stated: no recorded call record — in a file's call list or
in a function's outgoing call list — has a name on the deny-list. -/
def specClaimC8 (st : AnalyzerState) : Prop :=
  ∀ m ∈ st.modules,
    (∀ c ∈ m.calls, c.name ∉ builtins) ∧
    (∀ f ∈ m.functions, ∀ nm ∈ f.calls, nm ∉ builtins)

/-- C1 / testable property 6: a file defining exactly
`function generateRoomId(){ return helper(); }` and
`function helper(){ return 1; }`. -/
def scenC1Ast : JsNode :=
  .other [
    .funcDecl (some "generateRoomId") []
      (.other [.callExpr (.identE "helper" 1) [] 1] 1) 1,
    .funcDecl (some "helper") [] (.other [] 2) 2] 0

/-- Analyzer state after ingesting the C1 file. -/
def scenC1Pre : AnalyzerState := analyzeFiles [⟨"server/server.js", some scenC1Ast⟩]

/-- Analyzer state of the C1 project after the full run. -/
def scenC1St : AnalyzerState := calculateFanInFanOut scenC1Pre

/-- The single (updated) module of the C1 project, used by the C2 witness. -/
def c2wM : FileInfo := scenC1St.modules.headD ⟨"", "", [], [], 0, 0⟩

/-- The updated `helper` record of the C1 project, used by the C2 witness. -/
def c2wF : FuncInfo := c2wM.functions.getD 1 ⟨"", "", "", [], [], 0, 0, 0, ""⟩

/-- C2 counterexample project: `proj/a.js` defines `function f(){}`, and
`proj/b.js` calls `f()` at its top level, outside every function — the
cross-file pass counts file `proj/b.js` as a caller although no function
anywhere calls `f`. -/
def scenC2St : AnalyzerState :=
  calculateFanInFanOut (analyzeFiles
    [⟨"proj/a.js", some (.other [.funcDecl (some "f") [] (.other [] 1) 1] 1)⟩,
     ⟨"proj/b.js", some (.other [.callExpr (.identE "f" 1) [] 1] 1)⟩])

/-- C3 scenario: `function outer(){ function inner(){ g(); } }`. -/
def scenC3St : AnalyzerState :=
  analyzeFiles [⟨"proj/n.js", some (.other [
    .funcDecl (some "outer") []
      (.other [.funcDecl (some "inner") []
        (.other [.callExpr (.identE "g" 3) [] 3] 3) 2] 2) 1] 0)⟩]

/-- C4 scenario: `socket.on('draw', function(data){ ... })` at top level. -/
def scenC4St : AnalyzerState :=
  analyzeFiles [⟨"server/server.js", some (.other [
    .callExpr (.memberExpr (.identE "socket" 1) "on" 1)
      [.strLit "draw" 1, .funcExpr [.identP "data"] (.other [] 1) 1] 1] 1)⟩]

/-- C5 counterexample module: three functions with no calls, no keyword
overlap and pairwise different parameter names — mutually unrelated in the
spec's sense, yet each pair trips the degenerate shared-parameter check. -/
def scenC5pSt : AnalyzerState :=
  calculateFanInFanOut (analyzeFiles [⟨"proj/m.js", some (.other [
    .funcDecl (some "alpha") [.identP "p"] (.other [] 1) 1,
    .funcDecl (some "beta") [.identP "q"] (.other [] 2) 2,
    .funcDecl (some "gamma") [.identP "r"] (.other [] 3) 3] 0)⟩])

/-- C5 amended scenario: three mutually unrelated parameterless functions. -/
def scenC5nSt : AnalyzerState :=
  calculateFanInFanOut (analyzeFiles [⟨"proj/q.js", some (.other [
    .funcDecl (some "alpha") [] (.other [] 1) 1,
    .funcDecl (some "beta") [] (.other [] 2) 2,
    .funcDecl (some "gamma") [] (.other [] 3) 3] 0)⟩])

/-- C7 scenario: a single module whose only function `draw_thing` (a
socket-handlers group member via the keyword "draw") calls `createThing`,
whose name contains the room-management keyword "create".  The call runs
from the later-listed group toward the earlier-listed one, which the
single-module coupling loop never counts. -/
def scenC7St : AnalyzerState :=
  calculateFanInFanOut (analyzeFiles [⟨"proj/p.js", some (.other [
    .funcDecl (some "draw_thing") []
      (.other [.callExpr (.identE "createThing" 2) [] 2] 2) 1] 1)⟩])

/-- The single module of the C7 scenario, used by the C7 witness. -/
def c7wM : FileInfo := scenC7St.modules.headD ⟨"", "", [], [], 0, 0⟩

/-- C8 counterexample: a file whose top level calls `setTimeout(foo, 100)` —
a deny-listed direct-identifier call that the file-level recording (which
filters only `require` and `console`) stores anyway. -/
def scenC8St : AnalyzerState :=
  analyzeFiles [⟨"proj/t.js", some (.other [
    .callExpr (.identE "setTimeout" 1) [.identE "foo" 1, .other [] 1] 1] 1)⟩]

/-- C9 counterexample input: a file esprima cannot parse. -/
def scenC9Bad : SrcFile := ⟨"proj/bad.js", none⟩

/-- C10 counterexample file body: the immediately-invoked function
expression `(function(){})()` — a CallExpression whose callee name cannot be
derived, so no record is produced although the name is neither `require` nor
`console`. -/
def scenC10Ast : JsNode := .other [.callExpr (.funcExpr [] (.other [] 1) 1) [] 1] 1

/-- C10 instance file body: a single method call `a.b()`. -/
def scenC10ab : JsNode :=
  .other [.callExpr (.memberExpr (.identE "a" 1) "b" 1) [] 1] 1
/-- Helper for C6: the source's rating chain (which tests the zero cases
last) equals the claim's formulation (which tests them first). -/
theorem ifcRating_characterization (fi fo : Nat) :
    ifcRating fi fo (ifcValue fi fo) =
      (if fi = 0 ∧ fo = 0 then "None"
       else if fi = 0 ∨ fo = 0 then "Low"
       else if ifcValue fi fo > 100 then "Very High"
       else if ifcValue fi fo > 25 then "High"
       else if ifcValue fi fo > 5 then "Medium"
       else "Low") := by
  unfold ifcRating ifcValue
  rcases Nat.eq_zero_or_pos fi with hfi | hfi <;>
    rcases Nat.eq_zero_or_pos fo with hfo | hfo <;>
      split_ifs <;> first | rfl | omega

/-- C1: for a project consisting of the single file
`function generateRoomId(){ return helper(); } function helper(){ return 1; }`
with no other calls, the full analysis run gives generateRoomId fan-out 1 and
fan-in 0, helper fan-in 1 and fan-out 0, and the module's cohesion is
1/1 = 1.0 (the only pair calls each other). -/
theorem c1_end_to_end_two_functions :
    ((functionsOf scenC1St).map fun f => (f.name, f.fanIn, f.fanOut)) =
      [("generateRoomId", 0, 1), ("helper", 1, 0)] ∧
    ((calculateCohesion scenC1St).map fun e =>
      (e.modName, e.sharedReferences, e.totalPairs)) = [("server", 1, 1)] ∧
    (∀ e ∈ calculateCohesion scenC1St, cohesionValue e = 1) := by
  refine ⟨by decide, by decide, ?_⟩
  intro e he
  have h2 : calculateCohesion scenC1St =
      [{ modName := "server", sharedReferences := 1, totalPairs := 1,
         rating := "High", reason := "" }] := by decide
  rw [h2] at he
  simp only [List.mem_singleton] at he
  subst he
  norm_num [cohesionValue]

/-- C4: an anonymous function that is literally an argument of a call
`object.method(...)` (so the callback rule fires at its immediate parent,
the only ancestor whose `arguments` can contain it by reference) is named
`<object>.<method>_<v>` for the call's first string-literal argument `v`,
and `<object>.<method>_handler` when the call has none; in particular the
callback in `socket.on('draw', function(data){...})` resolves to
`socket.on_draw` end to end. -/
theorem c4_callback_naming :
    (∀ (o mth : String) (args rest : List JsNode) (c lo lm lc : Nat),
      walkAnonName true
        (JsNode.callExpr (.memberExpr (.identE o lo) mth lm) args lc :: rest) c =
        ((match firstStrLit args with
          | some v => o ++ "." ++ mth ++ "_" ++ v
          | none => o ++ "." ++ mth ++ "_handler"), c)) ∧
    ((functionsOf scenC4St).map fun f => f.name) = ["socket.on_draw"] := by
  constructor
  · intro o mth args rest c lo lm lc
    cases h : firstStrLit args <;> simp [walkAnonName, callRuleName, h]
  · decide

/-- C9 (amended): when a file cannot be parsed, `analyzeFile` returns the
state unchanged and prints nothing — the file is excluded from all graph
construction and the analysis of every other file proceeds exactly as if the
bad file were absent; no exception escapes the per-file boundary.  (The
claim's "a warning is emitted" is refuted by `c9_claim_counterexample`: the
catch block is empty.) -/
theorem c9_parse_failure_skip :
    (∀ (st : AnalyzerState) (f : SrcFile), f.ast = none →
       analyzeFileWithOutput st f = (st, [])) ∧
    (∀ (fs1 fs2 : List SrcFile) (f : SrcFile), f.ast = none →
       analyzeFiles (fs1 ++ f :: fs2) = analyzeFiles (fs1 ++ fs2)) := by
  have h1 : ∀ (st : AnalyzerState) (f : SrcFile), f.ast = none →
      analyzeFileWithOutput st f = (st, []) := by
    intro st f h
    simp [analyzeFileWithOutput, h]
  refine ⟨h1, ?_⟩
  intro fs1 fs2 f h
  have h2 : ∀ st, analyzeFile st f = st := by
    intro st; simp [analyzeFile, h1 st f h]
  simp [analyzeFiles, List.foldl_append, h2]

/-- C9 counterexample: the claim says a warning is emitted on parse
failure, but `analyzeFile` emits nothing — its catch block is empty. -/
theorem c9_claim_counterexample :
    ¬ (∀ (st : AnalyzerState) (f : SrcFile), f.ast = none →
        (analyzeFileWithOutput st f).2 ≠ []) := by
  intro h
  exact h ⟨[], []⟩ scenC9Bad rfl rfl

/-- C6: IFC = (fanIn * fanOut)^2 exactly when both are positive and 0
otherwise, and the rating is "None" when both are zero, "Low" when exactly
one is zero, "Very High" for IFC > 100, "High" for 25 < IFC <= 100, "Medium"
for 5 < IFC <= 25, and "Low" otherwise. -/
theorem c6_ifc_formula_and_rating :
    (∀ fi fo : Nat, ifcValue fi fo = if 0 < fi ∧ 0 < fo then (fi * fo) ^ 2 else 0) ∧
    (∀ (st : AnalyzerState) (e : IFCEntry), e ∈ calculateInformationFlowComplexity st →
      e.ifc = (if 0 < e.fanIn ∧ 0 < e.fanOut then (e.fanIn * e.fanOut) ^ 2 else 0) ∧
      e.rating =
        (if e.fanIn = 0 ∧ e.fanOut = 0 then "None"
         else if e.fanIn = 0 ∨ e.fanOut = 0 then "Low"
         else if e.ifc > 100 then "Very High"
         else if e.ifc > 25 then "High"
         else if e.ifc > 5 then "Medium"
         else "Low")) := by
  refine ⟨fun fi fo => rfl, ?_⟩
  intro st e he
  simp only [calculateInformationFlowComplexity, List.mem_map] at he
  obtain ⟨f, hf, rfl⟩ := he
  exact ⟨rfl, ifcRating_characterization f.fanIn f.fanOut⟩

/-- C5 (amended): a pair contributes cohesion evidence iff one of: (i) one
calls the other (exact or substring), (ii') BOTH functions declare at least
one parameter — the source's shared-parameter check degenerates to this
because its `typeof` clause is always true — (iii) they share a call-target
base object, or (iv) both names contain the same domain keyword; a module of
three mutually unrelated PARAMETERLESS functions yields cohesion 0/3 = 0
with rating "Low". -/
theorem c5_cohesion_evidence_amended :
    (∀ f1 f2 : FuncInfo,
      pairEvidence f1 f2 =
        (callsEachOther f1 f2 || (!f1.params.isEmpty && !f2.params.isEmpty) ||
          sharedDepsCheck f1 f2 || similarDataCheck f1 f2)) ∧
    ((calculateCohesion scenC5nSt).map fun e =>
      (e.modName, e.sharedReferences, e.totalPairs, e.rating)) = [("q", 0, 3, "Low")] ∧
    (∀ e ∈ calculateCohesion scenC5nSt, cohesionValue e = 0) := by
  refine ⟨?_, by decide, ?_⟩
  · intro f1 f2
    have h : sharedParamsCheck f1 f2 = (!f1.params.isEmpty && !f2.params.isEmpty) := by
      rcases hp : f1.params with _ | ⟨p, ps⟩ <;> rcases hq : f2.params with _ | ⟨q, qs⟩ <;>
        simp [sharedParamsCheck, hp, hq]
    unfold pairEvidence
    rw [h]
  · intro e he
    have h2 : calculateCohesion scenC5nSt =
        [{ modName := "q", sharedReferences := 0, totalPairs := 3,
           rating := "Low", reason := "" }] := by decide
    rw [h2] at he
    simp only [List.mem_singleton] at he
    subst he
    norm_num [cohesionValue]

/-- C5 counterexample: three mutually unrelated functions in the spec's
sense (no shared calls, parameter names, dependencies or keyword overlap),
each with one parameter, yield cohesion 3/3 = 1 rated "High", not 0 rated
"Low": the degenerate shared-parameter check fires for every pair. -/
theorem c5_claim_counterexample : ¬ specClaimC5 scenC5pSt := by
  intro h
  rcases h (scenC5pSt.modules.headD ⟨"", "", [], [], 0, 0⟩) (by decide) (by decide)
      ((calculateCohesion scenC5pSt).headD ⟨"", 0, 0, "", ""⟩) (by decide) (by decide)
    with ⟨_, h2⟩
  exact absurd h2 (by decide)

/-- C2 counterexample: in a project where `proj/b.js` calls `f()` only at
its top level (inside no function), `f` ends with fanIn = 1 although the
number of distinct calling functions across the project is 0. -/
theorem c2_claim_counterexample : ¬ specClaimC2 scenC2St := by
  unfold specClaimC2
  decide

/-- C7 counterexample: with one module whose only function `draw_thing`
(socket-handlers group) calls `createThing` (contains room-management
keyword "create"), the undirected pair count is 1 so the claim demands a
"loose" entry, but the computed coupling pairs are empty: the source counts
only calls from the earlier-listed group to the later-listed one. -/
theorem c7_claim_counterexample : ¬ specClaimC7 scenC7St := by
  unfold specClaimC7
  decide

/-- C8 counterexample: a top-level `setTimeout(foo, 100)` is recorded in
the file's call list with the deny-listed name "setTimeout" — the file-level
recording filters only `require` and `console`. -/
theorem c8_claim_counterexample : ¬ specClaimC8 scenC8St := by
  unfold specClaimC8
  decide

/-- C10 counterexample: the IIFE `(function(){})()` is a CallExpression
whose derived callee name is neither "require" nor "console", yet no
file-level record is produced, because no callee name can be derived at
all. -/
theorem c10_claim_counterexample :
    ¬ (∀ (p mn : String) (ast : JsNode),
        ((analyzeAST p mn ast).1.calls).length = specC10Count ast) := by
  intro h
  have := h "proj/x.js" "x" scenC10Ast
  exact absurd this (by decide)


/-- Names recorded by `extractHead` either were present already or are tagged
names of the call node itself. -/
theorem extractHead_fst_mem (callee : JsNode) (args : List JsNode) (l : Nat)
    (acc : List String × Nat) (nm : String)
    (h : nm ∈ (extractHead callee args l acc).1) :
    nm ∈ acc.1 ∨ (true, nm) ∈ tlHead callee args l ∨ (false, nm) ∈ tlHead callee args l := by
  cases callee with
  | identE nm2 l2 =>
      by_cases hb : nm2 ∈ builtins
      · left
        simpa [extractHead, hb] using h
      · by_cases ha : nm2 ∈ acc.1
        · left
          simpa [extractHead, hb, ha] using h
        · rw [extractHead] at h
          rw [if_pos ⟨hb, ha⟩] at h
          rcases List.mem_append.1 h with h1 | h1
          · exact .inl h1
          · right; left
            simp only [List.mem_singleton] at h1
            simp [tlHead, hb, h1]
  | memberExpr o p lm =>
      rw [extractHead] at h
      cases hg : getCalleeName (.callExpr (.memberExpr o p lm) args l) with
      | none => simp only [hg] at h; exact .inl h
      | some cn =>
          simp only [hg] at h
          by_cases hc : cn ≠ "" ∧ cn ∉ acc.1
          · rw [if_pos hc] at h
            rcases List.mem_append.1 h with h1 | h1
            · exact .inl h1
            · right; right
              simp only [List.mem_singleton] at h1
              simp [tlHead, hg, hc.1, h1]
          · rw [if_neg hc] at h
            exact .inl h
  | funcDecl nm2 ps b l2 => exact .inl h
  | funcExpr ps b l2 => exact .inl h
  | arrowExpr ps b l2 => exact .inl h
  | callExpr c2 a2 l2 => exact .inl h
  | strLit s l2 => exact .inl h
  | varDeclarator i v l2 => exact .inl h
  | propNode k v l2 => exact .inl h
  | other cs l2 => exact .inl h

/-- A direct-identifier tag produced by `tlHead` passed the deny-list. -/
theorem tlHead_true_not_builtin (callee : JsNode) (args : List JsNode) (l : Nat)
    (nm : String) (h : (true, nm) ∈ tlHead callee args l) : nm ∉ builtins := by
  cases callee with
  | identE nm2 l2 =>
      by_cases hb : nm2 ∈ builtins
      · simp [tlHead, hb] at h
      · simp only [tlHead, if_pos hb, List.mem_singleton] at h
        rw [Prod.mk.injEq] at h
        rw [← h.2] at hb
        exact hb
  | memberExpr o p lm =>
      rw [tlHead] at h
      cases hg : getCalleeName (.callExpr (.memberExpr o p lm) args l) with
      | none => simp only [hg] at h; simp at h
      | some cn =>
          simp only [hg] at h
          by_cases hc : cn ≠ ""
          · rw [if_pos hc] at h; simp at h
          · rw [if_neg hc] at h; simp at h
  | funcDecl nm2 ps b l2 => simp [tlHead] at h
  | funcExpr ps b l2 => simp [tlHead] at h
  | arrowExpr ps b l2 => simp [tlHead] at h
  | callExpr c2 a2 l2 => simp [tlHead] at h
  | strLit s l2 => simp [tlHead] at h
  | varDeclarator i v l2 => simp [tlHead] at h
  | propNode k v l2 => simp [tlHead] at h
  | other cs l2 => simp [tlHead] at h

/-- Every name in a function's outgoing call list after extraction either was
there before or is a (direct or member) call name of the lexical top-level
region of the extracted node — never of a nested function body, since
`tlCallNames` stops at every function-definition boundary. -/
theorem extractCalls_mem_tl :
    (∀ n : JsNode, ∀ (acc : List String × Nat) (nm : String),
        nm ∈ (extractCalls n acc).1 →
        nm ∈ acc.1 ∨ (true, nm) ∈ tlCallNames n ∨ (false, nm) ∈ tlCallNames n) ∧
    (∀ ns : List JsNode, ∀ (acc : List String × Nat) (nm : String),
        nm ∈ (extractCallsSeq ns acc).1 →
        nm ∈ acc.1 ∨ (true, nm) ∈ tlCallNamesSeq ns ∨ (false, nm) ∈ tlCallNamesSeq ns) := by
  apply tlCallNames.mutual_induct
  · intro name ps body line acc nm h
    exact .inl h
  · intro ps body line acc nm h
    exact .inl h
  · intro ps body line acc nm h
    exact .inl h
  · -- callExpr
    intro callee args l ih1 ih2 acc nm h
    rw [extractCalls] at h
    rcases ih2 _ nm h with h2 | h2 | h2
    · by_cases hf : isFunctionNode callee
      · rw [if_pos hf] at h2
        rcases extractHead_fst_mem callee args l acc nm h2 with h3 | h3 | h3
        · exact .inl h3
        · exact .inr (.inl (by
            rw [tlCallNames]
            exact List.mem_append_left _ (List.mem_append_left _ h3)))
        · exact .inr (.inr (by
            rw [tlCallNames]
            exact List.mem_append_left _ (List.mem_append_left _ h3)))
      · rw [if_neg hf] at h2
        rcases ih1 _ nm h2 with h3 | h3 | h3
        · rcases extractHead_fst_mem callee args l acc nm h3 with h4 | h4 | h4
          · exact .inl h4
          · exact .inr (.inl (by
              rw [tlCallNames]
              exact List.mem_append_left _ (List.mem_append_left _ h4)))
          · exact .inr (.inr (by
              rw [tlCallNames]
              exact List.mem_append_left _ (List.mem_append_left _ h4)))
        · refine .inr (.inl ?_)
          rw [tlCallNames]
          refine List.mem_append_left _ (List.mem_append_right _ ?_)
          rw [if_neg hf]
          exact h3
        · refine .inr (.inr ?_)
          rw [tlCallNames]
          refine List.mem_append_left _ (List.mem_append_right _ ?_)
          rw [if_neg hf]
          exact h3
    · refine .inr (.inl ?_)
      rw [tlCallNames]
      exact List.mem_append_right _ h2
    · refine .inr (.inr ?_)
      rw [tlCallNames]
      exact List.mem_append_right _ h2
  · -- memberExpr, function-typed object
    intro obj prop line hf acc nm h
    rw [extractCalls, if_pos hf] at h
    exact .inl h
  · -- memberExpr, ordinary object
    intro obj prop line hf ih acc nm h
    rw [extractCalls, if_neg hf] at h
    rcases ih acc nm h with h2 | h2 | h2
    · exact .inl h2
    · exact .inr (.inl (by rw [tlCallNames, if_neg hf]; exact h2))
    · exact .inr (.inr (by rw [tlCallNames, if_neg hf]; exact h2))
  · intro name line acc nm h
    exact .inl h
  · intro v line acc nm h
    exact .inl h
  · intro id i line hf acc nm h
    rw [extractCalls, if_pos hf] at h
    exact .inl h
  · intro id i line hf ih acc nm h
    rw [extractCalls, if_neg hf] at h
    rcases ih acc nm h with h2 | h2 | h2
    · exact .inl h2
    · exact .inr (.inl (by rw [tlCallNames, if_neg hf]; exact h2))
    · exact .inr (.inr (by rw [tlCallNames, if_neg hf]; exact h2))
  · intro k v line hf acc nm h
    rw [extractCalls, if_pos hf] at h
    exact .inl h
  · intro k v line hf ih acc nm h
    rw [extractCalls, if_neg hf] at h
    rcases ih acc nm h with h2 | h2 | h2
    · exact .inl h2
    · exact .inr (.inl (by rw [tlCallNames, if_neg hf]; exact h2))
    · exact .inr (.inr (by rw [tlCallNames, if_neg hf]; exact h2))
  · intro cs line ih acc nm h
    rw [extractCalls] at h
    rcases ih acc nm h with h2 | h2 | h2
    · exact .inl h2
    · exact .inr (.inl (by rw [tlCallNames]; exact h2))
    · exact .inr (.inr (by rw [tlCallNames]; exact h2))
  · intro acc nm h
    exact .inl h
  · -- cons
    intro x xs ih1 ih2 acc nm h
    rw [extractCallsSeq] at h
    rcases ih2 _ nm h with h2 | h2 | h2
    · by_cases hf : isFunctionNode x
      · rw [if_pos hf] at h2
        exact .inl h2
      · rw [if_neg hf] at h2
        rcases ih1 acc nm h2 with h3 | h3 | h3
        · exact .inl h3
        · refine .inr (.inl ?_)
          rw [tlCallNamesSeq]
          refine List.mem_append_left _ ?_
          rw [if_neg hf]
          exact h3
        · refine .inr (.inr ?_)
          rw [tlCallNamesSeq]
          refine List.mem_append_left _ ?_
          rw [if_neg hf]
          exact h3
    · exact .inr (.inl (by rw [tlCallNamesSeq]; exact List.mem_append_right _ h2))
    · exact .inr (.inr (by rw [tlCallNamesSeq]; exact List.mem_append_right _ h2))

/-- Direct-identifier names collected at top level always passed the
deny-list filter. -/
theorem tlCallNames_true_not_builtin :
    (∀ n : JsNode, ∀ nm : String, (true, nm) ∈ tlCallNames n → nm ∉ builtins) ∧
    (∀ ns : List JsNode, ∀ nm : String, (true, nm) ∈ tlCallNamesSeq ns → nm ∉ builtins) := by
  apply tlCallNames.mutual_induct
  · intro name ps body line nm h
    simp [tlCallNames] at h
  · intro ps body line nm h
    simp [tlCallNames] at h
  · intro ps body line nm h
    simp [tlCallNames] at h
  · intro callee args l ih1 ih2 nm h
    rw [tlCallNames] at h
    rcases List.mem_append.1 h with h1 | h1
    · rcases List.mem_append.1 h1 with h2 | h2
      · exact tlHead_true_not_builtin callee args l nm h2
      · by_cases hf : isFunctionNode callee
        · rw [if_pos hf] at h2; simp at h2
        · rw [if_neg hf] at h2; exact ih1 nm h2
    · exact ih2 nm h1
  · intro obj prop line hf nm h
    rw [tlCallNames, if_pos hf] at h; simp at h
  · intro obj prop line hf ih nm h
    rw [tlCallNames, if_neg hf] at h
    exact ih nm h
  · intro name line nm h
    simp [tlCallNames] at h
  · intro v line nm h
    simp [tlCallNames] at h
  · intro id i line hf nm h
    rw [tlCallNames, if_pos hf] at h; simp at h
  · intro id i line hf ih nm h
    rw [tlCallNames, if_neg hf] at h
    exact ih nm h
  · intro k v line hf nm h
    rw [tlCallNames, if_pos hf] at h; simp at h
  · intro k v line hf ih nm h
    rw [tlCallNames, if_neg hf] at h
    exact ih nm h
  · intro cs line ih nm h
    rw [tlCallNames] at h
    exact ih nm h
  · intro nm h
    simp [tlCallNamesSeq] at h
  · intro x xs ih1 ih2 nm h
    rw [tlCallNamesSeq] at h
    rcases List.mem_append.1 h with h1 | h1
    · by_cases hf : isFunctionNode x
      · rw [if_pos hf] at h1; simp at h1
      · rw [if_neg hf] at h1; exact ih1 nm h1
    · exact ih2 nm h1

/-- Membership view of `tlDirectNames`. -/
theorem mem_tlDirectNames (n : JsNode) (nm : String) :
    nm ∈ tlDirectNames n ↔ (true, nm) ∈ tlCallNames n := by
  constructor
  · intro h
    rcases List.mem_filterMap.1 h with ⟨⟨b, x⟩, hmem, he⟩
    cases b
    · simp at he
    · simp only [if_pos] at he
      simp at he
      rw [← he]
      exact hmem
  · intro h
    exact List.mem_filterMap.2 ⟨(true, nm), h, by simp⟩

/-- Membership view of `tlMemberNames`. -/
theorem mem_tlMemberNames (n : JsNode) (nm : String) :
    nm ∈ tlMemberNames n ↔ (false, nm) ∈ tlCallNames n := by
  constructor
  · intro h
    rcases List.mem_filterMap.1 h with ⟨⟨b, x⟩, hmem, he⟩
    cases b
    · simp at he
      rw [← he]
      exact hmem
    · simp at he
  · intro h
    exact List.mem_filterMap.2 ⟨(false, nm), h, by simp⟩

/-- A file-level record is never named `require` or `console`. -/
theorem fileCallEntry_names (n : JsNode) (l : Nat) (t : String) (c : FileCall)
    (h : c ∈ fileCallEntry n l t) : c.name ≠ "require" ∧ c.name ≠ "console" := by
  rw [fileCallEntry] at h
  cases hg : getCalleeName n with
  | none => simp only [hg] at h; simp at h
  | some cn =>
      simp only [hg] at h
      by_cases hc : cn ≠ "" ∧ cn ≠ "require" ∧ cn ≠ "console"
      · rw [if_pos hc] at h
        simp only [List.mem_singleton] at h
        subst h
        exact ⟨hc.2.1, hc.2.2⟩
      · rw [if_neg hc] at h
        simp at h

/-- No collected file-level record is named `require` or `console`. -/
theorem fileCallCollect_names :
    (∀ n : JsNode, ∀ c ∈ fileCallCollect n, c.name ≠ "require" ∧ c.name ≠ "console") ∧
    (∀ ns : List JsNode, ∀ c ∈ fileCallCollectSeq ns,
      c.name ≠ "require" ∧ c.name ≠ "console") := by
  apply fileCallCollect.mutual_induct
  · intro name ps body line ih c hc
    exact ih c hc
  · intro ps body line ih c hc
    exact ih c hc
  · intro ps body line ih c hc
    exact ih c hc
  · intro callee args l ih1 ih2 c hc
    rw [fileCallCollect] at hc
    rcases List.mem_append.1 hc with h1 | h1
    · rcases List.mem_append.1 h1 with h2 | h2
      · exact fileCallEntry_names _ _ _ c h2
      · exact ih1 c h2
    · exact ih2 c h1
  · intro obj prop line ih c hc
    rw [fileCallCollect] at hc
    rcases List.mem_append.1 hc with h1 | h1
    · exact fileCallEntry_names _ _ _ c h1
    · exact ih c h1
  · intro name line c hc
    simp [fileCallCollect] at hc
  · intro v line c hc
    simp [fileCallCollect] at hc
  · intro id i line ih c hc
    exact ih c hc
  · intro k v line ih c hc
    exact ih c hc
  · intro cs line ih c hc
    exact ih c hc
  · intro c hc
    simp [fileCallCollectSeq] at hc
  · intro x xs ih1 ih2 c hc
    rw [fileCallCollectSeq] at hc
    rcases List.mem_append.1 hc with h1 | h1
    · exact ih1 c h1
    · exact ih2 c h1

/-- `recordFileCall` appends exactly the node's `fileCallEntry`. -/
theorem recordFileCall_fcalls (p : String) (n : JsNode) (l : Nat) (t : String)
    (acc : TravAcc) :
    (recordFileCall p n l t acc).fcalls = acc.fcalls ++ fileCallEntry n l t := by
  rw [recordFileCall, fileCallEntry]
  cases hg : getCalleeName n with
  | none => simp [hg]
  | some cn =>
      by_cases hc : cn ≠ "" ∧ cn ≠ "require" ∧ cn ≠ "console"
      · simp [hg, hc]
      · simp [hg, hc]

/-- The traversal's file-level call list grows by exactly `fileCallCollect`
of the visited node, independent of the naming state. -/
theorem travNode_fcalls :
    (∀ n : JsNode, ∀ (p mn : String) (b : Bool) (ch : List JsNode) (acc : TravAcc),
        (travNode p mn b ch n acc).fcalls = acc.fcalls ++ fileCallCollect n) ∧
    (∀ ns : List JsNode, ∀ (p mn : String) (ch : List JsNode) (acc : TravAcc),
        (travSeq p mn ch ns acc).fcalls = acc.fcalls ++ fileCallCollectSeq ns ∧
        (travArgs p mn ch ns acc).fcalls = acc.fcalls ++ fileCallCollectSeq ns) := by
  apply fileCallCollect.mutual_induct
  · intro name ps body line ih p mn b ch acc
    simp only [travNode, fileCallCollect]
    rw [ih]
    congr 1
    split <;> rfl
  · intro ps body line ih p mn b ch acc
    simp only [travNode, fileCallCollect]
    rw [ih]
    congr 1
    split <;> rfl
  · intro ps body line ih p mn b ch acc
    simp only [travNode, fileCallCollect]
    rw [ih]
    congr 1
    split <;> rfl
  · intro callee args l ih1 ih2 p mn b ch acc
    simp only [travNode, fileCallCollect]
    rw [(ih2 p mn _ _).2, ih1, recordFileCall_fcalls]
    simp [List.append_assoc]
  · intro obj prop line ih p mn b ch acc
    simp only [travNode, fileCallCollect]
    rw [ih, recordFileCall_fcalls]
    simp [List.append_assoc]
  · intro name line p mn b ch acc
    simp only [travNode, fileCallCollect]
    simp
  · intro v line p mn b ch acc
    simp only [travNode, fileCallCollect]
    simp
  · intro id i line ih p mn b ch acc
    simp only [travNode, fileCallCollect]
    rw [ih]
  · intro k v line ih p mn b ch acc
    simp only [travNode, fileCallCollect]
    rw [ih]
  · intro cs line ih p mn b ch acc
    simp only [travNode, fileCallCollect]
    exact (ih p mn _ acc).1
  · intro p mn ch acc
    constructor <;> simp [travSeq, travArgs, fileCallCollectSeq]
  · intro x xs ih1 ih2 p mn ch acc
    constructor
    · simp only [travSeq, fileCallCollectSeq]
      rw [(ih2 p mn ch _).1, ih1]
      simp [List.append_assoc]
    · simp only [travArgs, fileCallCollectSeq]
      rw [(ih2 p mn ch _).2, ih1]
      simp [List.append_assoc]

/-- C3: call extraction never enters a function-definition node (passing one
returns the accumulator unchanged), so every name it records comes from the
lexical top-level region of the extracted body — a call expression inside a
nested function definition never appears in the enclosing function's
outgoing call list; concretely, in
`function outer(){ function inner(){ g(); } }` the call `g` is attributed to
`inner`'s own call list and `outer`'s list is empty. -/
theorem c3_nested_call_isolation :
    (∀ (n : JsNode) (acc : List String × Nat), isFunctionNode n = true →
       extractCalls n acc = acc) ∧
    (∀ (n : JsNode) (acc : List String × Nat) (nm : String),
       nm ∈ (extractCalls n acc).1 →
       nm ∈ acc.1 ∨ nm ∈ tlDirectNames n ∨ nm ∈ tlMemberNames n) ∧
    ((functionsOf scenC3St).map fun f => (f.name, f.calls)) =
      [("outer", []), ("inner", ["g"])] := by
  refine ⟨?_, ?_, by decide⟩
  · intro n acc h
    cases n <;> first | rfl | simp [isFunctionNode] at h
  · intro n acc nm h
    rcases extractCalls_mem_tl.1 n acc nm h with h1 | h1 | h1
    · exact .inl h1
    · exact .inr (.inl ((mem_tlDirectNames n nm).2 h1))
    · exact .inr (.inr ((mem_tlMemberNames n nm).2 h1))

/-- C8 (amended): a deny-listed name can enter a function's outgoing call
list only as the resolved name of a member-expression call, never through a
direct-identifier call (those are filtered against the deny-list); the
file-level call list filters only the names `require` and `console`, so no
file-level record carries either of those names, but other deny-listed names
can appear there (see `c8_claim_counterexample`). -/
theorem c8_denylist_scope :
    (∀ (n : JsNode) (acc : List String × Nat) (nm : String), nm ∈ builtins →
       nm ∈ (extractCalls n acc).1 → nm ∈ acc.1 ∨ nm ∈ tlMemberNames n) ∧
    (∀ (p mn : String) (ast : JsNode) (c : FileCall),
       c ∈ (analyzeAST p mn ast).1.calls →
       c.name ≠ "require" ∧ c.name ≠ "console") := by
  constructor
  · intro n acc nm hb h
    rcases extractCalls_mem_tl.1 n acc nm h with h1 | h1 | h1
    · exact .inl h1
    · exact absurd hb (tlCallNames_true_not_builtin.1 n nm h1)
    · exact .inr ((mem_tlMemberNames n nm).2 h1)
  · intro p mn ast c hc
    have he : (analyzeAST p mn ast).1.calls = fileCallCollect ast := by
      simp [analyzeAST, travNode_fcalls.1]
    rw [he] at hc
    exact fileCallCollect_names.1 ast c hc

/-- C10 (amended): the file-level call list is exactly one record per
CallExpression or MemberExpression node anywhere in the file — nested
function bodies included — whose derived callee name exists, is non-empty
and is neither `require` nor `console`; in particular a single method call
`a.b()` produces two records named "a.b" (one for the call node, one for its
callee member node). -/
theorem c10_file_call_records :
    (∀ (p mn : String) (ast : JsNode),
       (analyzeAST p mn ast).1.calls = fileCallCollect ast) ∧
    (analyzeAST "proj/y.js" "y" scenC10ab).1.calls =
      [{ name := "a.b", line := 1, ctype := "CallExpression" },
       { name := "a.b", line := 1, ctype := "MemberExpression" }] := by
  constructor
  · intro p mn ast
    simp [analyzeAST, travNode_fcalls.1]
  · decide

/-- Elements after a guarded set-insert. -/
theorem addUnique_sub (l : List String) (k x : String) (h : x ∈ addUnique l k) :
    x ∈ l ∨ x = k := by
  rw [addUnique] at h
  by_cases hk : k ∈ l
  · rw [if_pos hk] at h
    exact .inl h
  · rw [if_neg hk] at h
    rcases List.mem_append.1 h with h1 | h1
    · exact .inl h1
    · exact .inr (List.mem_singleton.1 h1)

/-- Set-insert preserves distinctness. -/
theorem addUnique_nodup (l : List String) (k : String) (h : l.Nodup) :
    (addUnique l k).Nodup := by
  rw [addUnique]
  by_cases hk : k ∈ l
  · rw [if_pos hk]
    exact h
  · rw [if_neg hk]
    simp [List.nodup_append, h, hk]

/-- Elements of a guarded insert-fold come from the start list or from the
keys of guard-satisfying elements. -/
theorem foldAddUnique_mem {α : Type} (q : α → Bool) (k : α → String) :
    ∀ (l : List α) (start : List String) (x : String),
      x ∈ l.foldl (fun acc a => if q a then addUnique acc (k a) else acc) start →
      x ∈ start ∨ x ∈ (l.filter q).map k := by
  intro l
  induction l with
  | nil =>
      intro start x h
      exact .inl h
  | cons a as ih =>
      intro start x h
      rw [List.foldl_cons] at h
      rcases ih _ x h with h1 | h1
      · by_cases hq : q a
        · rw [if_pos hq] at h1
          rcases addUnique_sub _ _ _ h1 with h2 | h2
          · exact .inl h2
          · right
            rw [List.filter_cons_of_pos hq, List.map_cons]
            exact h2 ▸ List.mem_cons_self _ _
        · rw [if_neg hq] at h1
          exact .inl h1
      · right
        by_cases hq : q a
        · rw [List.filter_cons_of_pos hq, List.map_cons]
          exact List.mem_cons_of_mem _ h1
        · rw [List.filter_cons_of_neg hq]
          exact h1

/-- A guarded insert-fold preserves distinctness. -/
theorem foldAddUnique_nodup {α : Type} (q : α → Bool) (k : α → String) :
    ∀ (l : List α) (start : List String), start.Nodup →
      (l.foldl (fun acc a => if q a then addUnique acc (k a) else acc) start).Nodup := by
  intro l
  induction l with
  | nil =>
      intro start h
      exact h
  | cons a as ih =>
      intro start h
      rw [List.foldl_cons]
      apply ih
      by_cases hq : q a
      · rw [if_pos hq]
        exact addUnique_nodup _ _ h
      · rw [if_neg hq]
        exact h

/-- The keys of the deduplicated function list are distinct and avoid the
seen set. -/
theorem uniqueByNameLineAux_keys (fs : List FuncInfo) :
    ∀ seen : List String,
      ((uniqueByNameLineAux seen fs).map nameLineKey).Nodup ∧
      ∀ x ∈ (uniqueByNameLineAux seen fs).map nameLineKey, x ∉ seen := by
  induction fs with
  | nil =>
      intro seen
      refine ⟨by simp [uniqueByNameLineAux], by simp [uniqueByNameLineAux]⟩
  | cons f fs ih =>
      intro seen
      rw [uniqueByNameLineAux]
      by_cases hk : nameLineKey f ∈ seen
      · rw [if_pos hk]
        refine ⟨(ih seen).1, fun x hx => (ih seen).2 x hx⟩
      · rw [if_neg hk]
        constructor
        · rw [List.map_cons, List.nodup_cons]
          refine ⟨fun hmem => ?_, (ih (nameLineKey f :: seen)).1⟩
          have h2 := (ih (nameLineKey f :: seen)).2 _ hmem
          exact h2 (List.mem_cons_self _ _)
        · intro x hx
          rw [List.map_cons] at hx
          rcases List.mem_cons.1 hx with h1 | h1
          · subst h1
            exact hk
          · intro hseen
            exact (ih (nameLineKey f :: seen)).2 _ h1 (List.mem_cons_of_mem _ hseen)

/-- `uniqueFunctions` has pairwise distinct name-line keys. -/
theorem uniqueByNameLine_keys_nodup (fs : List FuncInfo) :
    ((uniqueByNameLine fs).map nameLineKey).Nodup :=
  (uniqueByNameLineAux_keys fs []).1

/-- A distinct list contained in another is no longer than the other's
deduplication. -/
theorem nodup_length_le_dedup (l l2 : List String) (h : l.Nodup)
    (hs : ∀ x ∈ l, x ∈ l2) : l.length ≤ l2.dedup.length := by
  have h1 : l.toFinset.card = l.length := List.toFinset_card_of_nodup h
  have h2 : l.toFinset ⊆ l2.toFinset := by
    intro x hx
    rw [List.mem_toFinset] at hx ⊢
    exact hs x hx
  have h3 : l2.toFinset.card = l2.dedup.length := List.card_toFinset l2
  calc l.length = l.toFinset.card := h1.symm
    _ ≤ l2.toFinset.card := Finset.card_le_card h2
    _ = l2.dedup.length := h3

/-- Deduplicated length is subadditive under append. -/
theorem dedup_append_le (a b : List String) :
    (a ++ b).dedup.length ≤ a.dedup.length + b.dedup.length := by
  have ha : a.toFinset.card = a.dedup.length := List.card_toFinset a
  have hb : b.toFinset.card = b.dedup.length := List.card_toFinset b
  have hab : (a ++ b).toFinset.card = (a ++ b).dedup.length := List.card_toFinset (a ++ b)
  calc (a ++ b).dedup.length = (a ++ b).toFinset.card := hab.symm
    _ = (a.toFinset ∪ b.toFinset).card := by rw [List.toFinset_append]
    _ ≤ a.toFinset.card + b.toFinset.card := Finset.card_union_le _ _
    _ = a.dedup.length + b.dedup.length := by rw [ha, hb]

/-- The unique-caller set of a function is bounded by the number of
same-module caller functions plus the number of distinct caller files. -/
theorem computeCallers_length_le (st : AnalyzerState) (f : FuncInfo) :
    (computeCallers st f).length ≤ intraCallerCount st f + crossFileCount st f := by
  rw [computeCallers, intraCallerCount, crossFileCount]
  cases hm : st.modules.find? (fun m => m.path == f.file) with
  | none =>
      have hnd := foldAddUnique_nodup (crossGuard f) (fun c => c.src) st.calls []
        List.nodup_nil
      have hle := nodup_length_le_dedup _
        ((st.calls.filter (crossGuard f)).map (fun c => c.src)) hnd (fun x hx => by
          rcases foldAddUnique_mem (crossGuard f) (fun c => c.src) st.calls [] x hx with h | h
          · simp at h
          · exact h)
      simpa using hle
  | some m =>
      have hnd1 := foldAddUnique_nodup (intraGuard f) nameLineKey
        (uniqueByNameLine m.functions) [] List.nodup_nil
      have hnd2 := foldAddUnique_nodup (crossGuard f) (fun c => c.src) st.calls _ hnd1
      have hsub : ∀ x ∈ st.calls.foldl
          (fun acc c => if crossGuard f c then addUnique acc c.src else acc)
          ((uniqueByNameLine m.functions).foldl
            (fun acc g => if intraGuard f g then addUnique acc (nameLineKey g) else acc) []),
          x ∈ ((uniqueByNameLine m.functions).filter (intraGuard f)).map nameLineKey ++
            (st.calls.filter (crossGuard f)).map (fun c => c.src) := by
        intro x hx
        rcases foldAddUnique_mem (crossGuard f) (fun c => c.src) st.calls _ x hx with h | h
        · rcases foldAddUnique_mem (intraGuard f) nameLineKey
            (uniqueByNameLine m.functions) [] x h with h1 | h1
          · simp at h1
          · exact List.mem_append_left _ h1
        · exact List.mem_append_right _ h
      have hA : (((uniqueByNameLine m.functions).filter (intraGuard f)).map nameLineKey).Nodup := by
        have hsl : List.Sublist
            (((uniqueByNameLine m.functions).filter (intraGuard f)).map nameLineKey)
            ((uniqueByNameLine m.functions).map nameLineKey) :=
          (List.filter_sublist _).map _
        exact (uniqueByNameLine_keys_nodup m.functions).sublist hsl
      have hle := nodup_length_le_dedup _ _ hnd2 hsub
      refine hle.trans ((dedup_append_le _ _).trans ?_)
      have hAded : (((uniqueByNameLine m.functions).filter (intraGuard f)).map
          nameLineKey).dedup.length =
          ((uniqueByNameLine m.functions).filter (intraGuard f)).length := by
        rw [List.dedup_eq_self.2 hA, List.length_map]
      rw [hAded]

/-- The caller set does not depend on the function's stored fanIn. -/
theorem computeCallers_fanIn_irrel (st : AnalyzerState) (f : FuncInfo) (x : Nat) :
    computeCallers st { f with fanIn := x } = computeCallers st f := rfl

/-- After `calculateFanInFanOut` every stored fanIn is the size of the
function's unique-caller set. -/
theorem fanIn_eq_computeCallers (st : AnalyzerState) (m : FileInfo) (f : FuncInfo)
    (hm : m ∈ (calculateFanInFanOut st).modules) (hf : f ∈ m.functions) :
    f.fanIn = (computeCallers st f).length := by
  rw [calculateFanInFanOut] at hm
  simp only [List.mem_map] at hm
  obtain ⟨m1, ⟨m0, hm0, rfl⟩, rfl⟩ := hm
  simp only [List.mem_map] at hf
  obtain ⟨f0, hf0, rfl⟩ := hf
  have h := computeCallers_fanIn_irrel st f0 ((computeCallers st f0).length)
  rw [h]

/-- C2 (amended): after the full analysis run every function's fanIn is at
most the number of same-module functions (other than itself) whose outgoing
calls contain its name, plus the number of distinct other files holding a
file-level call record targeting exactly its name; each such caller
contributes at most once however many calls it makes, and the two counts are
over distinct callers. -/
theorem c2_fanin_caller_bound (st : AnalyzerState) (m : FileInfo) (f : FuncInfo)
    (hm : m ∈ (calculateFanInFanOut st).modules) (hf : f ∈ m.functions) :
    f.fanIn ≤ intraCallerCount st f + crossFileCount st f := by
  rw [fanIn_eq_computeCallers st m f hm hf]
  exact computeCallers_length_le st f

theorem c2_fanin_caller_bound_witness :
    c2wF.fanIn ≤ intraCallerCount scenC1Pre c2wF + crossFileCount scenC1Pre c2wF :=
  c2_fanin_caller_bound scenC1Pre c2wM c2wF (by decide) (by decide)

/-- Finding skips a conditional singleton chunk whose element fails the
predicate. -/
theorem find?_chunk_skip {α : Type} (p : α → Bool) (c : Prop) [Decidable c]
    (e : α) (l : List α) (h : p e = false) :
    List.find? p ((if c then [e] else []) ++ l) = List.find? p l := by
  by_cases hc : c
  · rw [if_pos hc]
    simp [List.find?, h]
  · rw [if_neg hc]
    simp

/-- Finding over a conditional singleton chunk whose element satisfies the
predicate. -/
theorem find?_chunk_hit {α : Type} (p : α → Bool) (c : Prop) [Decidable c]
    (e : α) (l : List α) (h : p e = true) :
    List.find? p ((if c then [e] else []) ++ l) =
      (if c then some e else List.find? p l) := by
  by_cases hc : c
  · rw [if_pos hc, if_pos hc]
    simp [List.find?, h]
  · rw [if_neg hc, if_neg hc]
    simp

/-- The single-module coupling loop unrolled over the three fixed group
pairs in order. -/
theorem couplingPairsSingle_unfold (m : FileInfo) :
    couplingPairsSingle m =
      (if groupCallCount m (groupAt 0).2 (groupAt 1).2 > 0 then
        [{ module1 := (groupAt 0).1, module2 := (groupAt 1).1,
           calls := groupCallCount m (groupAt 0).2 (groupAt 1).2,
           ctype := if groupCallCount m (groupAt 0).2 (groupAt 1).2 > 5
                    then "tight" else "loose" }] else []) ++
      ((if groupCallCount m (groupAt 0).2 (groupAt 2).2 > 0 then
        [{ module1 := (groupAt 0).1, module2 := (groupAt 2).1,
           calls := groupCallCount m (groupAt 0).2 (groupAt 2).2,
           ctype := if groupCallCount m (groupAt 0).2 (groupAt 2).2 > 5
                    then "tight" else "loose" }] else []) ++
       ((if groupCallCount m (groupAt 1).2 (groupAt 2).2 > 0 then
        [{ module1 := (groupAt 1).1, module2 := (groupAt 2).1,
           calls := groupCallCount m (groupAt 1).2 (groupAt 2).2,
           ctype := if groupCallCount m (groupAt 1).2 (groupAt 2).2 > 5
                    then "tight" else "loose" }] else []) ++ [])) := by
  have hr : List.range 3 = [0, 1, 2] := rfl
  have hlen : functionalGroups.length = 3 := rfl
  have hg0 : groupAt 0 = ("room-management", ["generateRoomId", "create", "join"]) := rfl
  have hg1 : groupAt 1 = ("socket-handlers",
    ["connection", "create-room", "join-room", "draw", "canvas-state", "disconnect"]) := rfl
  have hg2 : groupAt 2 = ("canvas-management", ["canvas-state", "canvasState"]) := rfl
  have hq0 : functionalGroups.get? 0 =
    some ("room-management", ["generateRoomId", "create", "join"]) := rfl
  have hq1 : functionalGroups.get? 1 = some ("socket-handlers",
    ["connection", "create-room", "join-room", "draw", "canvas-state", "disconnect"]) := rfl
  have hq2 : functionalGroups.get? 2 =
    some ("canvas-management", ["canvas-state", "canvasState"]) := rfl
  have hx0 : functionalGroups[0] = ("room-management", ["generateRoomId", "create", "join"]) := rfl
  have hx1 : functionalGroups[1] = ("socket-handlers",
    ["connection", "create-room", "join-room", "draw", "canvas-state", "disconnect"]) := rfl
  have hx2 : functionalGroups[2] = ("canvas-management", ["canvas-state", "canvasState"]) := rfl
  by_cases h01 : groupCallCount m (groupAt 0).2 (groupAt 1).2 > 0 <;>
    by_cases h02 : groupCallCount m (groupAt 0).2 (groupAt 2).2 > 0 <;>
      by_cases h12 : groupCallCount m (groupAt 1).2 (groupAt 2).2 > 0 <;>
        simp only [hg0, hg1, hg2] at h01 h02 h12 <;>
        simp [couplingPairsSingle, hlen, hr, hq0, hq1, hq2, hg0, hg1, hg2,
          hx0, hx1, hx2,
          List.flatMap_cons, List.flatMap_nil, List.filterMap_cons, List.filterMap_nil,
          h01, h02, h12]

/-- C7 (amended): with exactly one module, the coupling pair for groups
i < j (in the fixed group order room-management, socket-handlers,
canvas-management) is present exactly when the DIRECTED count — calls of
functions matching group i's keywords whose target contains a keyword of
group j — is positive, and then carries that count, classified "tight" above
5 calls and "loose" otherwise.  Calls in the reverse direction (from the
later-listed group toward the earlier-listed one) are not counted, contrary
to the claim's undirected reading (see `c7_claim_counterexample`). -/
theorem c7_group_coupling_directional (m : FileInfo) (gc : List GlobalCall)
    (i j : Nat) (hij : i < j) (hj : j < functionalGroups.length) :
    couplingEntryFor (calculateCoupling ⟨[m], gc⟩) (groupAt i).1 (groupAt j).1 =
      (if groupCallCount m (groupAt i).2 (groupAt j).2 > 0 then
        some { module1 := (groupAt i).1, module2 := (groupAt j).1,
               calls := groupCallCount m (groupAt i).2 (groupAt j).2,
               ctype := if groupCallCount m (groupAt i).2 (groupAt j).2 > 5
                        then "tight" else "loose" }
      else none) := by
  have hg0 : groupAt 0 = ("room-management", ["generateRoomId", "create", "join"]) := rfl
  have hg1 : groupAt 1 = ("socket-handlers",
    ["connection", "create-room", "join-room", "draw", "canvas-state", "disconnect"]) := rfl
  have hg2 : groupAt 2 = ("canvas-management", ["canvas-state", "canvasState"]) := rfl
  have hcp : (calculateCoupling ⟨[m], gc⟩).couplingPairs = couplingPairsSingle m := rfl
  have hj3 : j < 3 := hj
  interval_cases j <;> interval_cases i
  · rw [couplingEntryFor, hcp, couplingPairsSingle_unfold]
    rw [find?_chunk_hit _ _ _ _ (by simp [hg0, hg1])]
    rw [find?_chunk_skip _ _ _ _ (by simp [hg0, hg1, hg2])]
    rw [find?_chunk_skip _ _ _ _ (by simp [hg0, hg1, hg2])]
    rw [List.find?_nil]
  · rw [couplingEntryFor, hcp, couplingPairsSingle_unfold]
    rw [find?_chunk_skip _ _ _ _ (by simp [hg0, hg1, hg2])]
    rw [find?_chunk_hit _ _ _ _ (by simp [hg0, hg2])]
    rw [find?_chunk_skip _ _ _ _ (by simp [hg0, hg1, hg2])]
    rw [List.find?_nil]
  · rw [couplingEntryFor, hcp, couplingPairsSingle_unfold]
    rw [find?_chunk_skip _ _ _ _ (by simp [hg0, hg1, hg2])]
    rw [find?_chunk_skip _ _ _ _ (by simp [hg0, hg1, hg2])]
    rw [find?_chunk_hit _ _ _ _ (by simp [hg1, hg2])]
    rw [List.find?_nil]

theorem c7_group_coupling_directional_witness :
    couplingEntryFor (calculateCoupling ⟨[c7wM], []⟩) (groupAt 0).1 (groupAt 1).1 =
      (if groupCallCount c7wM (groupAt 0).2 (groupAt 1).2 > 0 then
        some { module1 := (groupAt 0).1, module2 := (groupAt 1).1,
               calls := groupCallCount c7wM (groupAt 0).2 (groupAt 1).2,
               ctype := if groupCallCount c7wM (groupAt 0).2 (groupAt 1).2 > 5
                        then "tight" else "loose" }
      else none) :=
  c7_group_coupling_directional c7wM [] 0 1 (by decide) (by decide)
